import Mathlib

/-!
Verification of the apfsprogs `apfsck` core: the generic id-keyed hash table
(`htable.c`) and the inode record / extended-field parser with its deferred
consistency pass (`inode.c`).

Modelling conventions:
- `report(context, message)` never returns; every function that can report is
  modelled in `Except String`, with the error carrying the message string
  (the context label is dropped; all messages of interest are distinct).
- Machine integers are modelled as `Nat` (all unsigned quantities) or `Int`
  (the C `int` length counters, which the code drives below zero on purpose
  to detect corruption).  No arithmetic here can overflow 32/64 bits for the
  input sizes the checker accepts, so no wraparound is modelled.
- Raw record values are `List Nat` of byte values, read little-endian.
- The struct layouts and named constants live in headers that are not part of
  the two sources; they are modelled from the spec (and the APFS on-disk
  format it describes) and are marked `Modelled from the spec:` below.
-/

set_option maxRecDepth 100000

namespace Apfsck

/-- Modelled from the spec: reserved catalog-id constants from the missing
`apfs.h`-style header.  The spec names an invalid sentinel, the root-parent
sentinel, three virtual-directory ids (root, private area, snapshot area) and
a minimum ordinary (user) inode number; the numeric values are those of the
APFS on-disk format. -/
def APFS_INVALID_INO_NUM : Nat := 0

/-- Modelled from the spec: the root-parent sentinel id. -/
def APFS_ROOT_DIR_PARENT : Nat := 1

/-- Modelled from the spec: the root-directory virtual inode id. -/
def APFS_ROOT_DIR_INO_NUM : Nat := 2

/-- Modelled from the spec: the private-area virtual inode id. -/
def APFS_PRIV_DIR_INO_NUM : Nat := 3

/-- Modelled from the spec: the snapshot-area virtual inode id. -/
def APFS_SNAP_DIR_INO_NUM : Nat := 6

/-- Modelled from the spec: the first ordinary (non-reserved) inode number. -/
def APFS_MIN_USER_INO_NUM : Nat := 16

/-- Modelled from the spec: file-type mask of a mode word. -/
def S_IFMT : Nat := 0xF000

/-- Modelled from the spec: regular-file type bits. -/
def S_IFREG : Nat := 0x8000

/-- Modelled from the spec: directory type bits. -/
def S_IFDIR : Nat := 0x4000

/-- Modelled from the spec: symlink type bits. -/
def S_IFLNK : Nat := 0xA000

/-- Modelled from the spec: socket type bits. -/
def S_IFSOCK : Nat := 0xC000

/-- Modelled from the spec: block-device type bits. -/
def S_IFBLK : Nat := 0x6000

/-- Modelled from the spec: character-device type bits. -/
def S_IFCHR : Nat := 0x2000

/-- Modelled from the spec: fifo type bits. -/
def S_IFIFO : Nat := 0x1000

/-- Modelled from the spec: extended-field type tags from the missing header.
Values are the APFS on-disk tag numbers. -/
def APFS_INO_EXT_TYPE_SNAP_XID : Nat := 1
def APFS_INO_EXT_TYPE_DELTA_TREE_OID : Nat := 2
def APFS_INO_EXT_TYPE_DOCUMENT_ID : Nat := 3
def APFS_INO_EXT_TYPE_NAME : Nat := 4
def APFS_INO_EXT_TYPE_PREV_FSIZE : Nat := 5
def APFS_INO_EXT_TYPE_RESERVED_6 : Nat := 6
def APFS_INO_EXT_TYPE_FINDER_INFO : Nat := 7
def APFS_INO_EXT_TYPE_DSTREAM : Nat := 8
def APFS_INO_EXT_TYPE_RESERVED_9 : Nat := 9
def APFS_INO_EXT_TYPE_DIR_STATS_KEY : Nat := 10
def APFS_INO_EXT_TYPE_FS_UUID : Nat := 11
def APFS_INO_EXT_TYPE_RESERVED_12 : Nat := 12
def APFS_INO_EXT_TYPE_SPARSE_BYTES : Nat := 13
def APFS_INO_EXT_TYPE_RDEV : Nat := 14

/-- Modelled from the spec: byte size of the fixed inode-value header
(parent id, private id, four timestamps, flags, nchildren/nlink union,
protection class, write generation, bsd flags, owner, group, mode, 16-bit
pad, 64-bit pad), per the APFS layout: 7*8 + 6*4 + 2*2 + 8 = 92. -/
def sizeof_apfs_inode_val : Nat := 92

/-- Modelled from the spec: byte size of the extended-field blob header
(16-bit field count + 16-bit used-payload byte count). -/
def sizeof_apfs_xf_blob : Nat := 4

/-- Modelled from the spec: byte size of one extended-field descriptor
(8-bit type tag, 8-bit flags, 16-bit declared size). -/
def sizeof_apfs_x_field : Nat := 4

/-- Modelled from the spec: byte size of the on-disk dstream record
(five 64-bit fields, the first being the size). -/
def sizeof_apfs_dstream : Nat := 40

/-- Modelled from the spec: byte size of the directory-statistics value
(four 64-bit fields). -/
def sizeof_apfs_dir_stats_val : Nat := 32

/-- Bucket count of a generic hash table (`htable.h`, value 512). -/
def HTABLE_BUCKETS : Nat := 512

/-- Bucket count of the inode hash table (`inode.h`, value 512). -/
def INODE_TABLE_BUCKETS : Nat := 512

/-- ROUND_UP from `types.h`: round `x` up to a multiple of 8. -/
def ROUND_UP8 (x : Nat) : Nat := (x + 7) / 8 * 8

/-- Byte `i` of a raw value.  All reads performed by the embedded code are
in bounds whenever the length argument matches the byte list, as in C where
the caller passes a buffer of exactly `len` bytes; the default 0 is never
reached on such inputs. -/
def getByte (v : List Nat) (i : Nat) : Nat := v.getD i 0

/-- Little-endian 16-bit read at offset `i` (le16_to_cpu of a field). -/
def le16_at (v : List Nat) (i : Nat) : Nat :=
  getByte v i + 0x100 * getByte v (i + 1)

/-- Little-endian 32-bit read at offset `i` (le32_to_cpu of a field). -/
def le32_at (v : List Nat) (i : Nat) : Nat :=
  le16_at v i + 0x10000 * le16_at v (i + 2)

/-- Little-endian 64-bit read at offset `i` (le64_to_cpu of a field). -/
def le64_at (v : List Nat) (i : Nat) : Nat :=
  le32_at v i + 0x100000000 * le32_at v (i + 4)

/-- In-memory inode entity (`struct inode` from the missing `inode.h`,
fields as used by `inode.c`): id, seen guard, declared private-stream id,
mode, declared link count, declared child count, walker-observed link count,
walker-observed child count, declared size.  `calloc` zero-initializes
every field. -/
structure Inode where
  i_ino : Nat
  i_seen : Bool
  i_private_id : Nat
  i_mode : Nat
  i_nlink : Nat
  i_nchildren : Nat
  i_link_count : Nat
  i_child_count : Nat
  i_size : Nat
deriving Repr, DecidableEq

/-- Zero-initialized inode as produced by `calloc` in `get_inode`, with
`i_seen` cleared and the inode number stamped. -/
def mkInode (ino : Nat) : Inode :=
  { i_ino := ino, i_seen := false, i_private_id := 0, i_mode := 0,
    i_nlink := 0, i_nchildren := 0, i_link_count := 0, i_child_count := 0,
    i_size := 0 }

section Htable

variable {α : Type}

/-- alloc_htable: an empty table with `HTABLE_BUCKETS` empty chains. -/
def alloc_htable : List (List α) := List.replicate HTABLE_BUCKETS ([] : List α)

/-- Chain walk of `get_htable_entry`: return the entry with matching id if
present; otherwise splice a fresh zero-initialized entry (built by `mk`) at
the sort-preserving position.  Returns the updated chain and the entry. -/
def chain_get (idOf : α → Nat) (mk : Nat → α) (id : Nat) :
    List α → List α × α
  | [] => ([mk id], mk id)
  | e :: rest =>
    if id = idOf e then (e :: rest, e)
    else if id < idOf e then (mk id :: e :: rest, mk id)
    else
      let p := chain_get idOf mk id rest
      (e :: p.1, p.2)

/-- get_htable_entry: find or create the entry with the given id, in the
bucket selected by the trivial hash `id % INODE_TABLE_BUCKETS`.  Returns the
updated table and the entry (C mutates the table in place). -/
def get_htable_entry (idOf : α → Nat) (mk : Nat → α) (id : Nat)
    (table : List (List α)) : List (List α) × α :=
  let index := id % INODE_TABLE_BUCKETS
  let p := chain_get idOf mk id (table.getD index [])
  (table.set index p.1, p.2)

/-- free_htable: the sequence of entries passed to `free_entry`, in order.
Each of the first `INODE_TABLE_BUCKETS` chains is walked front to back,
saving the next link before the entry is finalized and released, and the
bucket array is released afterwards. -/
def free_htable (table : List (List α)) : List α :=
  ((List.range INODE_TABLE_BUCKETS).map fun i => table.getD i []).flatten

/-- Table state after a sequence of `get_htable_entry` calls starting from a
fresh `alloc_htable`. -/
def run_gets (idOf : α → Nat) (mk : Nat → α) (ids : List Nat) :
    List (List α) :=
  ids.foldl (fun t id => (get_htable_entry idOf mk id t).1) alloc_htable

end Htable

/-- get_inode from `inode.c`: same find-or-create walk as the generic
engine, specialized to the inode table (chains ordered by ino, fresh
entries `calloc`-zeroed with `i_seen = false` and the ino stamped). -/
def get_inode (ino : Nat) (table : List (List Inode)) :
    List (List Inode) × Inode :=
  get_htable_entry Inode.i_ino mkInode ino table

/-- strnlen of the buffer starting at offset `pos` of `v`, with bound
`maxlen`: the index of the first zero byte among the first `maxlen` bytes,
or `maxlen` when none of them is zero, scanning forward as C does. -/
def strnlen_at (v : List Nat) (pos : Nat) : Nat → Nat
  | 0 => 0
  | maxlen + 1 =>
    if getByte v pos = 0 then 0 else strnlen_at v (pos + 1) maxlen + 1

/-- read_dstream_xfield from `inode.c`: check that the dstream record fits
in the remaining `len` bytes, store its declared size (first 64-bit field)
on the inode, and return the field length `sizeof_apfs_dstream`. -/
def read_dstream_xfield (v : List Nat) (pos : Nat) (len : Int)
    (inode : Inode) : Except String (Nat × Inode) :=
  if len < (sizeof_apfs_dstream : Int) then
    .error "doesn\x27t fit in inode record."
  else
    .ok (sizeof_apfs_dstream, { inode with i_size := le64_at v pos })

/-- Switch of `parse_inode_xfields` computing one field length `xlen` from
the type tag, at payload offset `pos` with `len` bytes remaining.  The name
case calls `strnlen(xval, len - 1)`: when `len = 0` the C bound `len - 1`
converts to a huge `size_t` and the scan runs past the record value, which
is not determined by the parsed bytes; this undefined behavior is modelled
as a distinguished error. -/
def xfield_len (v : List Nat) (pos : Nat) (len : Int) (xtype : Nat)
    (inode : Inode) : Except String (Nat × Inode) :=
  if xtype = APFS_INO_EXT_TYPE_FS_UUID then .ok (16, inode)
  else if xtype = APFS_INO_EXT_TYPE_SNAP_XID ∨
      xtype = APFS_INO_EXT_TYPE_DELTA_TREE_OID ∨
      xtype = APFS_INO_EXT_TYPE_PREV_FSIZE ∨
      xtype = APFS_INO_EXT_TYPE_SPARSE_BYTES then .ok (8, inode)
  else if xtype = APFS_INO_EXT_TYPE_DOCUMENT_ID ∨
      xtype = APFS_INO_EXT_TYPE_FINDER_INFO ∨
      xtype = APFS_INO_EXT_TYPE_RDEV then .ok (4, inode)
  else if xtype = APFS_INO_EXT_TYPE_NAME then
    if len ≤ 0 then .error "UNDEFINED BEHAVIOR: strnlen reads past the value"
    else
      let xlen := strnlen_at v pos (len - 1).toNat + 1
      if getByte v (pos + (xlen - 1)) ≠ 0 then
        .error "name with no null termination"
      else .ok (xlen, inode)
  else if xtype = APFS_INO_EXT_TYPE_DSTREAM then
    read_dstream_xfield v pos len inode
  else if xtype = APFS_INO_EXT_TYPE_DIR_STATS_KEY then
    .ok (sizeof_apfs_dir_stats_val, inode)
  else if xtype = APFS_INO_EXT_TYPE_RESERVED_6 ∨
      xtype = APFS_INO_EXT_TYPE_RESERVED_9 ∨
      xtype = APFS_INO_EXT_TYPE_RESERVED_12 then
    .error "reserved type in use."
  else .error "invalid type."

/-- Descriptor loop of `parse_inode_xfields` over the remaining
descriptors (type tag, declared size), with `pos` the current payload
offset in `v` and `len` the remaining length.  Each step computes `xlen`,
requires it to equal the declared size, consumes it plus zero padding to
the next 8-byte boundary, and fails if the running length goes negative or
a padding byte is non-zero.  Returns the final remaining length and the
updated inode. -/
def xfields_loop (v : List Nat) : List (Nat × Nat) → Nat → Int → Inode →
    Except String (Int × Inode)
  | [], _pos, len, inode => .ok (len, inode)
  | (xtype, xsize) :: rest, pos, len, inode =>
    match xfield_len v pos len xtype inode with
    | .error e => .error e
    | .ok (xlen, inode') =>
      if xlen ≠ xsize then .error "wrong size"
      else
        let len' := len - xlen
        let xpad_len := ROUND_UP8 xlen - xlen
        let len'' := len' - xpad_len
        if len'' < 0 then .error "does not fit in record value."
        else if (List.range xpad_len).any
            (fun j => getByte v (pos + xlen + j) ≠ 0) then
          .error "non-zero padding."
        else xfields_loop v rest (pos + xlen + xpad_len) len'' inode'

/-- Descriptor array read from the blob: descriptor `i` sits at offset
`sizeof_apfs_xf_blob + i * sizeof_apfs_x_field`, with the 8-bit type tag at
offset 0 and the 16-bit declared size at offset 2. -/
def xfield_descs (v : List Nat) (xcount : Nat) : List (Nat × Nat) :=
  (List.range xcount).map fun i =>
    (getByte v (sizeof_apfs_xf_blob + sizeof_apfs_x_field * i),
     le16_at v (sizeof_apfs_xf_blob + sizeof_apfs_x_field * i + 2))

/-- parse_inode_xfields from `inode.c`: `v` is the byte blob after the
fixed inode header and `len` its length (the C caller passes a buffer of
exactly `len` bytes).  Checks the blob header, the descriptor array size,
the declared used-payload count, then runs the descriptor loop and demands
that the remaining length is exactly zero. -/
def parse_inode_xfields (v : List Nat) (len : Int) (inode : Inode) :
    Except String Inode :=
  if len = 0 then .ok inode
  else
    let len1 := len - (sizeof_apfs_xf_blob : Int)
    if len1 < 0 then .error "no room for extended fields."
    else
      let xcount := le16_at v 0
      let len2 := len1 - (xcount * sizeof_apfs_x_field : Nat)
      if len2 < 0 then .error "number of xfields cannot fit."
      else if (le16_at v 2 : Int) ≠ len2 then
        .error "value size incompatible with xfields."
      else
        match xfields_loop v (xfield_descs v xcount)
            (sizeof_apfs_xf_blob + xcount * sizeof_apfs_x_field) len2 inode with
        | .error e => .error e
        | .ok (lenF, inode') =>
          if lenF ≠ 0 then .error "length of xfields does not add up."
          else .ok inode'

/-- check_inode_ids from `inode.c`: validate an inode number against its
parent id, per the reserved-id policy table. -/
def check_inode_ids (ino parent_ino : Nat) : Except String Unit :=
  if ino < APFS_MIN_USER_INO_NUM then
    if ino = APFS_INVALID_INO_NUM ∨ ino = APFS_ROOT_DIR_PARENT then
      .error "invalid inode number."
    else if ino = APFS_ROOT_DIR_INO_NUM ∨ ino = APFS_PRIV_DIR_INO_NUM ∨
        ino = APFS_SNAP_DIR_INO_NUM then
      if parent_ino ≠ APFS_ROOT_DIR_PARENT then .error "bad parent id"
      else .ok ()
    else .error "reserved inode number."
  else if parent_ino < APFS_MIN_USER_INO_NUM then
    if parent_ino = APFS_INVALID_INO_NUM then
      .error "invalid parent inode number."
    else if parent_ino = APFS_ROOT_DIR_PARENT then
      .error "root parent id for nonroot."
    else if parent_ino = APFS_ROOT_DIR_INO_NUM ∨
        parent_ino = APFS_PRIV_DIR_INO_NUM ∨
        parent_ino = APFS_SNAP_DIR_INO_NUM then .ok ()
    else .error "reserved parent inode number."
  else .ok ()

/-- check_inode_stats from `inode.c`: the deferred per-inode pass run at
inode-table teardown.  `d_size` is the still-live dstream table of the
collaborator, modelled from the spec as a total lookup from private id to
the tracked dstream size (the spec: a dstream lookup keyed by private id,
assumed to always resolve). -/
def check_inode_stats (inode : Inode) (d_size : Nat → Nat) :
    Except String Unit :=
  if inode.i_mode &&& S_IFMT = S_IFDIR then
    if inode.i_link_count ≠ 1 then .error "directory has hard links."
    else if inode.i_nchildren ≠ inode.i_child_count then
      .error "wrong directory child count."
    else if d_size inode.i_private_id < inode.i_size then
      .error "some extents are missing."
    else .ok ()
  else
    if inode.i_nlink ≠ inode.i_link_count then .error "wrong link count."
    else if d_size inode.i_private_id < inode.i_size then
      .error "some extents are missing."
    else .ok ()

/-- Session state touched by `parse_inode_record`: the volume superblock
holder `vsb` with the inode table and the per-type object tallies. -/
structure Super where
  v_inode_table : List (List Inode)
  v_file_count : Nat
  v_dir_count : Nat
  v_symlink_count : Nat
  v_special_count : Nat
deriving Repr, DecidableEq

/-- Write-back of the in-place C mutation of one inode: every chain entry
with the same ino (there is at most one) is replaced by the updated
entity. -/
def htable_update (table : List (List Inode)) (inode : Inode) :
    List (List Inode) :=
  table.map fun bucket =>
    bucket.map fun e => if e.i_ino = inode.i_ino then inode else e

/-- Type-tally switch of `parse_inode_record`: classify the file type and
bump the matching counter (directories with reserved-range ids are
excluded from the tally); an unknown type is fatal. -/
def count_filetype (filetype ino : Nat) (vsb : Super) : Except String Super :=
  if filetype = S_IFREG then
    .ok { vsb with v_file_count := vsb.v_file_count + 1 }
  else if filetype = S_IFDIR then
    if APFS_MIN_USER_INO_NUM ≤ ino then
      .ok { vsb with v_dir_count := vsb.v_dir_count + 1 }
    else .ok vsb
  else if filetype = S_IFLNK then
    .ok { vsb with v_symlink_count := vsb.v_symlink_count + 1 }
  else if filetype = S_IFSOCK ∨ filetype = S_IFBLK ∨ filetype = S_IFCHR ∨
      filetype = S_IFIFO then
    .ok { vsb with v_special_count := vsb.v_special_count + 1 }
  else .error "invalid file mode."

/-- parse_inode_record from `inode.c`.  `key_id` is the catalog id carried
by the record key (`cat_cnid(&key->hdr)`, extracted by the collaborating
key module); `val` is the raw value of `len` bytes.  Field offsets in the
fixed 92-byte header: parent id at 0, private id at 8, nlink at 56, mode at
80, pad1 at 82, pad2 at 84, extended fields from 92. -/
def parse_inode_record (key_id : Nat) (val : List Nat) (len : Int)
    (vsb : Super) : Except String Super :=
  if len < (sizeof_apfs_inode_val : Int) then .error "value is too small."
  else
    let p := get_inode key_id vsb.v_inode_table
    let inode := p.2
    if inode.i_seen then .error "inode numbers are repeated."
    else
      let inode := { inode with i_seen := true,
                                i_private_id := le64_at val 8 }
      match check_inode_ids inode.i_ino (le64_at val 0) with
      | .error e => .error e
      | .ok _ =>
        let mode := le16_at val 80
        let filetype := mode &&& S_IFMT
        if inode.i_mode ≠ 0 ∧ inode.i_mode ≠ filetype then
          .error "file mode doesn\x27t match dentry type."
        else
          let inode := { inode with i_mode := mode }
          match count_filetype filetype inode.i_ino vsb with
          | .error e => .error e
          | .ok vsb' =>
            let inode := { inode with i_nlink := le32_at val 56 }
            if le16_at val 82 ≠ 0 ∨ le64_at val 84 ≠ 0 then
              .error "padding should be zeroes."
            else
              match parse_inode_xfields (val.drop sizeof_apfs_inode_val)
                  (len - (sizeof_apfs_inode_val : Int)) inode with
              | .error e => .error e
              | .ok inode' =>
                .ok { vsb' with
                      v_inode_table := htable_update p.1 inode' }

/-- Demo inode-record value of exactly 92 bytes: parent id 20, private id
7, nlink 1, mode 0x4141 (directory type bits), zero padding fields and no
extended fields. -/
def demo_inode_val : List Nat :=
  (List.replicate 8 0).set 0 20 ++ (List.replicate 8 0).set 0 7 ++
    List.replicate 40 0 ++ [1, 0, 0, 0] ++ List.replicate 20 0 ++
    [0x41, 0x41] ++ [0, 0] ++ List.replicate 8 0

/-- Demo inode-record value of exactly 92 bytes with regular-file mode
0x8124 and nlink 1. -/
def demo_inode_val_reg : List Nat :=
  (List.replicate 8 0).set 0 20 ++ (List.replicate 8 0).set 0 7 ++
    List.replicate 40 0 ++ [1, 0, 0, 0] ++ List.replicate 20 0 ++
    [0x24, 0x81] ++ [0, 0] ++ List.replicate 8 0

/-- Demo session with a freshly allocated inode table. -/
def demo_super0 : Super :=
  { v_inode_table := alloc_htable, v_file_count := 0, v_dir_count := 0,
    v_symlink_count := 0, v_special_count := 0 }

/-- Demo session after parsing `demo_inode_val` for catalog id 20. -/
def demo_super1 : Super :=
  match parse_inode_record 20 demo_inode_val 92 demo_super0 with
  | .ok s => s
  | .error _ => demo_super0

/-- Demo session whose inode 20 already carries directory type bits set by
an earlier-observed dentry record. -/
def demo_super2 : Super :=
  { v_inode_table :=
      alloc_htable.set (20 % INODE_TABLE_BUCKETS)
        [{ mkInode 20 with i_mode := 0x4000 }],
    v_file_count := 0, v_dir_count := 0,
    v_symlink_count := 0, v_special_count := 0 }

/-- Demo session after parsing `demo_inode_val` for catalog id 20 on top of
`demo_super2`. -/
def demo_super3 : Super :=
  match parse_inode_record 20 demo_inode_val 92 demo_super2 with
  | .ok s => s
  | .error _ => demo_super2

/-! ### Helper lemmas -/

theorem strnlen_at_first_zero (v : List Nat) :
    ∀ maxlen pos p, p < maxlen → getByte v (pos + p) = 0 →
      (∀ q, q < p → getByte v (pos + q) ≠ 0) → strnlen_at v pos maxlen = p := by
  intro maxlen
  induction maxlen with
  | zero => intro pos p hp _ _; exact absurd hp (Nat.not_lt_zero p)
  | succ n ih =>
    intro pos p hp hz hmin
    cases p with
    | zero =>
      have : getByte v pos = 0 := by simpa using hz
      simp [strnlen_at, this]
    | succ m =>
      have h0 : getByte v pos ≠ 0 := by
        have := hmin 0 (Nat.succ_pos m)
        simpa using this
      have ihm : strnlen_at v (pos + 1) n = m := by
        refine ih (pos + 1) m (by omega) ?_ ?_
        · have : pos + 1 + m = pos + (m + 1) := by omega
          rw [this]; exact hz
        · intro q hq
          have : pos + 1 + q = pos + (q + 1) := by omega
          rw [this]; exact hmin (q + 1) (by omega)
      simp [strnlen_at, h0, ihm]

theorem strnlen_at_no_zero (v : List Nat) :
    ∀ maxlen pos, (∀ q, q < maxlen → getByte v (pos + q) ≠ 0) →
      strnlen_at v pos maxlen = maxlen := by
  intro maxlen
  induction maxlen with
  | zero => intro pos _; rfl
  | succ n ih =>
    intro pos hmin
    have h0 : getByte v pos ≠ 0 := by
      have := hmin 0 (Nat.succ_pos n)
      simpa using this
    have ihm : strnlen_at v (pos + 1) n = n := by
      refine ih (pos + 1) ?_
      intro q hq
      have : pos + 1 + q = pos + (q + 1) := by omega
      rw [this]; exact hmin (q + 1) (by omega)
    simp [strnlen_at, h0, ihm]

/-! ### C3: the (ino, parent_ino) policy table -/

/-- C3: `check_inode_ids` implements the policy table exactly.  The invalid
and root-parent sentinels used as an ino are fatal; the three virtual-area
inos are legal exactly when the parent is the root-parent sentinel; any
other reserved ino is fatal; an ordinary ino is fatal exactly when the
parent is the invalid sentinel, the root-parent sentinel, or a reserved id
other than the three virtual-area ids, and otherwise the check returns
without reporting. -/
theorem check_inode_ids_policy (ino parent_ino : Nat) :
    ((ino = APFS_INVALID_INO_NUM ∨ ino = APFS_ROOT_DIR_PARENT) →
      check_inode_ids ino parent_ino = .error "invalid inode number.") ∧
    ((ino = APFS_ROOT_DIR_INO_NUM ∨ ino = APFS_PRIV_DIR_INO_NUM ∨
        ino = APFS_SNAP_DIR_INO_NUM) →
      (if parent_ino = APFS_ROOT_DIR_PARENT then
        check_inode_ids ino parent_ino = .ok ()
      else check_inode_ids ino parent_ino = .error "bad parent id")) ∧
    (ino < APFS_MIN_USER_INO_NUM → ino ∉ ([0, 1, 2, 3, 6] : List Nat) →
      check_inode_ids ino parent_ino = .error "reserved inode number.") ∧
    (APFS_MIN_USER_INO_NUM ≤ ino →
      (parent_ino = APFS_INVALID_INO_NUM →
        check_inode_ids ino parent_ino = .error "invalid parent inode number.") ∧
      (parent_ino = APFS_ROOT_DIR_PARENT →
        check_inode_ids ino parent_ino = .error "root parent id for nonroot.") ∧
      (parent_ino < APFS_MIN_USER_INO_NUM →
        parent_ino ∉ ([0, 1, 2, 3, 6] : List Nat) →
        check_inode_ids ino parent_ino = .error "reserved parent inode number.") ∧
      ((parent_ino = APFS_ROOT_DIR_INO_NUM ∨ parent_ino = APFS_PRIV_DIR_INO_NUM ∨
          parent_ino = APFS_SNAP_DIR_INO_NUM ∨ APFS_MIN_USER_INO_NUM ≤ parent_ino) →
        check_inode_ids ino parent_ino = .ok ())) := by
  unfold check_inode_ids APFS_INVALID_INO_NUM APFS_ROOT_DIR_PARENT
    APFS_ROOT_DIR_INO_NUM APFS_PRIV_DIR_INO_NUM APFS_SNAP_DIR_INO_NUM
    APFS_MIN_USER_INO_NUM
  refine ⟨?_, ?_, ?_, ?_⟩
  · rintro (rfl | rfl) <;> simp
  · rintro (rfl | rfl | rfl) <;> split <;> simp_all
  · intro h1 h2
    simp only [List.mem_cons, List.not_mem_nil] at h2
    push_neg at h2
    obtain ⟨a, b, c, d, e, _⟩ := h2
    simp [h1, a, b, c, d, e]
  · intro h1
    refine ⟨?_, ?_, ?_, ?_⟩
    · rintro rfl; simp; omega
    · rintro rfl; simp; omega
    · intro h2 h3
      simp only [List.mem_cons, List.not_mem_nil] at h3
      push_neg at h3
      obtain ⟨a, b, c, d, e, _⟩ := h3
      have : ¬ ino < 16 := by omega
      simp [this, h2, a, b, c, d, e]
    · rintro (rfl | rfl | rfl | h2) <;>
        · have : ¬ ino < 16 := by omega
          simp [this] <;> omega

/-- Witness for C3 at concrete inputs: the root directory with a non-root
parent id is fatal with "bad parent id", and an ordinary inode with an
ordinary parent passes. -/
theorem check_inode_ids_policy_witness :
    check_inode_ids 2 5 = .error "bad parent id" ∧
    check_inode_ids 20 30 = .ok () := by
  constructor
  · have h := (check_inode_ids_policy 2 5).2.1 (Or.inl rfl)
    simpa using h
  · exact ((check_inode_ids_policy 20 30).2.2.2 (by decide)).2.2.2
      (Or.inr (Or.inr (Or.inr (by decide))))

/-! ### C4: deferred link-count and child-count checks -/

/-- C4: the deferred check `check_inode_stats` reports, for a directory,
"directory has hard links." exactly when the observed link count is not 1,
and "wrong directory child count." exactly when the link count is 1 but the
declared child count differs from the observed one; for a non-directory it
reports "wrong link count." exactly when the declared link count differs
from the observed reference count. -/
theorem check_inode_stats_counts (inode : Inode) (d_size : Nat → Nat) :
    (inode.i_mode &&& S_IFMT = S_IFDIR →
      (check_inode_stats inode d_size = .error "directory has hard links." ↔
        inode.i_link_count ≠ 1) ∧
      (check_inode_stats inode d_size = .error "wrong directory child count." ↔
        (inode.i_link_count = 1 ∧ inode.i_nchildren ≠ inode.i_child_count))) ∧
    (inode.i_mode &&& S_IFMT ≠ S_IFDIR →
      (check_inode_stats inode d_size = .error "wrong link count." ↔
        inode.i_nlink ≠ inode.i_link_count)) := by
  constructor
  · intro hdir
    constructor
    · by_cases h1 : inode.i_link_count = 1 <;>
        by_cases h2 : inode.i_nchildren = inode.i_child_count <;>
        by_cases h3 : d_size inode.i_private_id < inode.i_size <;>
        simp [check_inode_stats, hdir, h1, h2, h3]
    · by_cases h1 : inode.i_link_count = 1 <;>
        by_cases h2 : inode.i_nchildren = inode.i_child_count <;>
        by_cases h3 : d_size inode.i_private_id < inode.i_size <;>
        simp [check_inode_stats, hdir, h1, h2, h3]
  · intro hdir
    by_cases h1 : inode.i_nlink = inode.i_link_count <;>
      by_cases h3 : d_size inode.i_private_id < inode.i_size <;>
      simp [check_inode_stats, hdir, h1, h3]

/-- Witness for C4, Scenario 1: a directory inode with observed link count
1 that declares 3 children while the walker observed 2 is reported with
"wrong directory child count."; a regular file with matching link counts
is not reported with "wrong link count.". -/
theorem check_inode_stats_counts_witness :
    check_inode_stats
      { mkInode 20 with i_mode := 0x4000, i_link_count := 1,
                        i_nchildren := 3, i_child_count := 2 }
      (fun _ => 0) = .error "wrong directory child count." ∧
    check_inode_stats
      { mkInode 21 with i_mode := 0x8000, i_nlink := 2, i_link_count := 2 }
      (fun _ => 0) ≠ .error "wrong link count." := by
  constructor
  · exact (((check_inode_stats_counts
      { mkInode 20 with i_mode := 0x4000, i_link_count := 1,
                        i_nchildren := 3, i_child_count := 2 }
      (fun _ => 0)).1 (by decide)).2).mpr (by decide)
  · intro h
    exact absurd (((check_inode_stats_counts
      { mkInode 21 with i_mode := 0x8000, i_nlink := 2, i_link_count := 2 }
      (fun _ => 0)).2 (by decide)).mp h) (by decide)

/-! ### C5: deferred dstream-size check -/

/-- C5: once the count checks of the deferred pass hold, `check_inode_stats`
looks up the dstream by the stored private id and reports "some extents are
missing." exactly when the tracked dstream size is strictly smaller than the
declared inode size. -/
theorem check_inode_stats_dstream (inode : Inode) (d_size : Nat → Nat)
    (hcounts : if inode.i_mode &&& S_IFMT = S_IFDIR then
        inode.i_link_count = 1 ∧ inode.i_nchildren = inode.i_child_count
      else inode.i_nlink = inode.i_link_count) :
    check_inode_stats inode d_size = .error "some extents are missing." ↔
      d_size inode.i_private_id < inode.i_size := by
  unfold check_inode_stats
  split at hcounts <;> simp_all

/-- Witness for C5, Scenario 4: an inode declaring size 1000 whose linked
dstream tracks only 500 bytes is reported with "some extents are
missing.". -/
theorem check_inode_stats_dstream_witness :
    check_inode_stats
      { mkInode 20 with i_mode := 0x8000, i_nlink := 2, i_link_count := 2,
                        i_private_id := 7, i_size := 1000 }
      (fun _ => 500) = .error "some extents are missing." := by
  exact (check_inode_stats_dstream
    { mkInode 20 with i_mode := 0x8000, i_nlink := 2, i_link_count := 2,
                      i_private_id := 7, i_size := 1000 }
    (fun _ => 500) (by decide)).mpr (by decide)

/-! ### C1: exact byte accounting of the extended-field blob -/

/-- C1: when an extended-field blob is present (nonzero residual length),
`parse_inode_xfields` enforces exact byte accounting.  Going negative after
removing the blob header, or after removing the declared descriptor array,
is fatal with its message; the length left after both must equal the
declared used-payload byte count exactly, else fatal; after the descriptor
loop (each field advanced by its computed length plus zero padding to the
next 8-byte boundary) a nonzero remaining length is fatal, a zero one
succeeds; and on success the residual length decomposes exactly as header
plus descriptor array plus declared payload, with the loop consuming the
payload down to exactly zero. -/
theorem parse_inode_xfields_exact (v : List Nat) (len : Int) (inode : Inode)
    (h0 : len ≠ 0) :
    (len - (sizeof_apfs_xf_blob : Int) < 0 →
      parse_inode_xfields v len inode =
        .error "no room for extended fields.") ∧
    (0 ≤ len - (sizeof_apfs_xf_blob : Int) →
      len - (sizeof_apfs_xf_blob : Int) -
          ((le16_at v 0 * sizeof_apfs_x_field : Nat) : Int) < 0 →
      parse_inode_xfields v len inode =
        .error "number of xfields cannot fit.") ∧
    (0 ≤ len - (sizeof_apfs_xf_blob : Int) -
        ((le16_at v 0 * sizeof_apfs_x_field : Nat) : Int) →
      (le16_at v 2 : Int) ≠
        len - (sizeof_apfs_xf_blob : Int) -
          ((le16_at v 0 * sizeof_apfs_x_field : Nat) : Int) →
      parse_inode_xfields v len inode =
        .error "value size incompatible with xfields.") ∧
    (∀ lenF inode',
      xfields_loop v (xfield_descs v (le16_at v 0))
          (sizeof_apfs_xf_blob + le16_at v 0 * sizeof_apfs_x_field)
          (len - (sizeof_apfs_xf_blob : Int) -
            ((le16_at v 0 * sizeof_apfs_x_field : Nat) : Int)) inode =
        .ok (lenF, inode') →
      (le16_at v 2 : Int) =
        len - (sizeof_apfs_xf_blob : Int) -
          ((le16_at v 0 * sizeof_apfs_x_field : Nat) : Int) →
      (lenF ≠ 0 → parse_inode_xfields v len inode =
        .error "length of xfields does not add up.") ∧
      (lenF = 0 → parse_inode_xfields v len inode = .ok inode')) ∧
    (∀ inode', parse_inode_xfields v len inode = .ok inode' →
      len = (sizeof_apfs_xf_blob : Int) +
        ((le16_at v 0 * sizeof_apfs_x_field : Nat) : Int) + (le16_at v 2 : Int) ∧
      xfields_loop v (xfield_descs v (le16_at v 0))
          (sizeof_apfs_xf_blob + le16_at v 0 * sizeof_apfs_x_field)
          (le16_at v 2 : Int) inode = .ok (0, inode')) := by
  simp only [parse_inode_xfields, if_neg h0]
  refine ⟨?_, ?_, ?_, ?_, ?_⟩
  · intro hlt
    rw [if_pos hlt]
  · intro hge hlt
    rw [if_neg (by omega), if_pos hlt]
  · intro hge hne
    rw [if_neg (by omega), if_neg (by omega), if_pos hne]
  · intro lenF inode' hloop hused
    have hge : 0 ≤ len - (sizeof_apfs_xf_blob : Int) -
        ((le16_at v 0 * sizeof_apfs_x_field : Nat) : Int) := by
      rw [← hused]; positivity
    rw [if_neg (by omega), if_neg (by omega),
        if_neg (by push_neg; exact hused), hloop]
    constructor
    · intro h; simp [h]
    · intro h; simp [h]
  · intro inode' h
    split at h
    · simp_all
    · split at h
      · simp_all
      · split at h
        · simp_all
        · rename_i h1 h2 h3
          push_neg at h3
          split at h
          · simp_all
          · rename_i lenF inodeF hloop
            split at h
            · simp_all
            · rename_i hz
              push_neg at hz
              simp only [Except.ok.injEq] at h
              subst h
              refine ⟨by omega, ?_⟩
              rw [← h3, hz] at hloop
              exact hloop

/-- Witness for C1, Scenario 3: a blob declaring 2 fields of sizes 8 and 4
with a declared payload count of 24 (the padded fields only consume 16)
leaves 8 bytes after the descriptor loop and is fatal with "length of
xfields does not add up.". -/
theorem parse_inode_xfields_exact_witness :
    parse_inode_xfields
      ([2, 0, 24, 0, 1, 0, 8, 0, 3, 0, 4, 0] ++ List.replicate 24 0)
      36 (mkInode 20) = .error "length of xfields does not add up." :=
  ((parse_inode_xfields_exact
      ([2, 0, 24, 0, 1, 0, 8, 0, 3, 0, 4, 0] ++ List.replicate 24 0)
      36 (mkInode 20) (by decide)).2.2.2.1 8 (mkInode 20)
    (by rfl) (by decide)).1 (by decide)

/-! ### C2: null-terminated name extended fields -/

/-- C2: for a name-type extended field with `len` bytes of payload left
(`len` at least 1, as the C scan `strnlen(xval, len - 1)` reads only
in-bounds bytes in that case): if the first zero byte of the remaining
payload sits at position `p`, the computed field length is `p + 1` and a
declared descriptor size different from `p + 1` makes the descriptor loop
fatal with "wrong size"; if the remaining payload contains no zero byte at
all, the field is fatal with "name with no null termination". -/
theorem parse_name_xfield (v : List Nat) (pos : Nat) (len : Int)
    (xsize : Nat) (rest : List (Nat × Nat)) (inode : Inode)
    (h1 : 1 ≤ len) :
    (∀ p : Nat, (p : Int) < len → getByte v (pos + p) = 0 →
      (∀ q, q < p → getByte v (pos + q) ≠ 0) →
      xfield_len v pos len APFS_INO_EXT_TYPE_NAME inode = .ok (p + 1, inode) ∧
      (p + 1 ≠ xsize →
        xfields_loop v ((APFS_INO_EXT_TYPE_NAME, xsize) :: rest) pos len
          inode = .error "wrong size")) ∧
    ((∀ p : Nat, (p : Int) < len → getByte v (pos + p) ≠ 0) →
      xfield_len v pos len APFS_INO_EXT_TYPE_NAME inode =
        .error "name with no null termination") := by
  have hlen0 : ¬ len ≤ 0 := by omega
  have hL : ((len - 1).toNat : Int) = len - 1 := by omega
  constructor
  · intro p hp hz hmin
    have hxlen : strnlen_at v pos (len - 1).toNat + 1 = p + 1 := by
      rcases Nat.lt_or_ge p (len - 1).toNat with hlt | hge
      · rw [strnlen_at_first_zero v (len - 1).toNat pos p hlt hz hmin]
      · have hpeq : p = (len - 1).toNat := by omega
        subst hpeq
        rw [strnlen_at_no_zero v (len - 1).toNat pos hmin]
    have hok : xfield_len v pos len APFS_INO_EXT_TYPE_NAME inode =
        .ok (p + 1, inode) := by
      simp only [xfield_len]
      rw [if_neg (by decide), if_neg (by decide), if_neg (by decide),
        if_pos trivial, if_neg hlen0, hxlen]
      simp only [Nat.add_sub_cancel]
      rw [if_neg (not_not_intro hz)]
    refine ⟨hok, ?_⟩
    intro hne
    simp only [xfields_loop, hok]
    rw [if_pos hne]
  · intro hnz
    simp only [xfield_len]
    rw [if_neg (by decide), if_neg (by decide), if_neg (by decide),
      if_pos trivial, if_neg hlen0]
    rw [strnlen_at_no_zero v (len - 1).toNat pos
      (fun q hq => hnz q (by omega))]
    simp only [Nat.add_sub_cancel]
    rw [if_pos (hnz (len - 1).toNat (by omega))]

/-- Witness for C2: the payload bytes 97, 98, 0 give a computed name length
of 3 (terminator at position 2), so a declared size of 5 is fatal with
"wrong size"; the payload bytes 97, 98, 99 have no terminator and are
fatal with "name with no null termination". -/
theorem parse_name_xfield_witness :
    xfields_loop [97, 98, 0] [(APFS_INO_EXT_TYPE_NAME, 5)] 0 3 (mkInode 20) =
      .error "wrong size" ∧
    xfield_len [97, 98, 99] 0 3 APFS_INO_EXT_TYPE_NAME (mkInode 20) =
      .error "name with no null termination" := by
  constructor
  · exact (((parse_name_xfield [97, 98, 0] 0 3 5 [] (mkInode 20)
      (by decide)).1 2 (by decide) (by decide)
      (by decide)).2 (by decide))
  · exact (parse_name_xfield [97, 98, 99] 0 3 5 [] (mkInode 20)
      (by decide)).2 (by
        intro p hp
        have hp3 : p < 3 := by omega
        interval_cases p <;> decide)

/-! ### Helper lemmas: the extended-field decoder touches only `i_size` -/

theorem xfield_len_size_only (v : List Nat) (pos : Nat) (len : Int)
    (xtype : Nat) (inode : Inode) (xlen : Nat) (inode' : Inode)
    (h : xfield_len v pos len xtype inode = .ok (xlen, inode')) :
    inode' = inode ∨ inode' = { inode with i_size := le64_at v pos } := by
  unfold xfield_len read_dstream_xfield at h
  simp only [] at h
  split_ifs at h <;>
    simp only [Except.ok.injEq, Prod.mk.injEq, reduceCtorEq] at h <;>
    first
      | exact Or.inl h.2.symm
      | exact Or.inr h.2.symm

theorem xfields_loop_size_only (v : List Nat) :
    ∀ (descs : List (Nat × Nat)) (pos : Nat) (len : Int) (inode : Inode)
      (lenF : Int) (inode' : Inode),
      xfields_loop v descs pos len inode = .ok (lenF, inode') →
      ∃ sz, inode' = { inode with i_size := sz } := by
  intro descs
  induction descs with
  | nil =>
    intro pos len inode lenF inode' h
    simp only [xfields_loop, Except.ok.injEq, Prod.mk.injEq] at h
    exact ⟨inode.i_size, by simp [← h.2]⟩
  | cons d rest ih =>
    intro pos len inode lenF inode' h
    obtain ⟨xtype, xsize⟩ := d
    simp only [xfields_loop] at h
    rcases hx : xfield_len v pos len xtype inode with e | q
    · rw [hx] at h; simp at h
    · obtain ⟨xlen, inode1⟩ := q
      rw [hx] at h
      simp only [] at h
      split at h
      · simp at h
      · split at h
        · simp at h
        · split at h
          · simp at h
          · obtain ⟨sz, hsz⟩ := ih _ _ _ _ _ h
            rcases xfield_len_size_only v pos len xtype inode xlen inode1 hx
              with h1 | h1 <;> subst h1 <;> exact ⟨sz, by simp [hsz]⟩

theorem parse_inode_xfields_size_only (v : List Nat) (len : Int)
    (inode inode' : Inode)
    (h : parse_inode_xfields v len inode = .ok inode') :
    ∃ sz, inode' = { inode with i_size := sz } := by
  simp only [parse_inode_xfields] at h
  split at h
  · simp only [Except.ok.injEq] at h
    exact ⟨inode.i_size, by simp [← h]⟩
  · split at h
    · simp at h
    · split at h
      · simp at h
      · split at h
        · simp at h
        · split at h
          · simp at h
          · rename_i lenF inodeF hloop
            split at h
            · simp at h
            · simp only [Except.ok.injEq] at h
              subst h
              exact xfields_loop_size_only v _ _ _ _ _ _ hloop

/-! ### Helper lemmas: hash-table chains and lookup after write-back -/

theorem chain_get_id {α : Type} (idOf : α → Nat) (mk : Nat → α)
    (hmk : ∀ i, idOf (mk i) = i) (id : Nat) :
    ∀ l : List α, idOf (chain_get idOf mk id l).2 = id := by
  intro l
  induction l with
  | nil => simp [chain_get, hmk]
  | cons e rest ih =>
    simp only [chain_get]
    split_ifs with h1 h2
    · simpa using h1.symm
    · simp [hmk]
    · simpa using ih

theorem get_inode_ino (id : Nat) (t : List (List Inode)) :
    (get_inode id t).2.i_ino = id := by
  unfold get_inode get_htable_entry
  exact chain_get_id Inode.i_ino mkInode (fun i => rfl) id _

theorem getD_set_self_len {β : Type} (l : List β) (i : Nat) (c d : β)
    (h : i < l.length) : (l.set i c).getD i d = c := by
  simp [List.getD_eq_getElem?_getD, List.getElem?_set_self h]

theorem getD_map_nil {β : Type} (f : List β → List β) (hf : f [] = [])
    (T : List (List β)) (i : Nat) : (T.map f).getD i [] = f (T.getD i []) := by
  simp only [List.getD_eq_getElem?_getD, List.getElem?_map]
  cases T[i]? <;> simp [hf]

theorem set_getD_self {β : Type} :
    ∀ (l : List β) (i : Nat) (d : β), l.set i (l.getD i d) = l
  | [], _, _ => rfl
  | _ :: _, 0, _ => rfl
  | a :: l, i + 1, d => congrArg (a :: ·) (set_getD_self l i d)

theorem chain_get_update_inode (id : Nat) (upd : Inode)
    (hupd : upd.i_ino = id) :
    ∀ l : List Inode,
      (chain_get Inode.i_ino mkInode id
        ((chain_get Inode.i_ino mkInode id l).1.map
          (fun e => if e.i_ino = upd.i_ino then upd else e))).2 = upd := by
  have hfound : ∀ rest : List Inode,
      (chain_get Inode.i_ino mkInode id (upd :: rest)).2 = upd := by
    intro rest
    simp only [chain_get, if_pos hupd.symm]
  have hg_upd : ∀ x : Inode, x.i_ino = id →
      (if x.i_ino = upd.i_ino then upd else x) = upd := by
    intro x hx
    rw [if_pos (by rw [hx, hupd])]
  intro l
  induction l with
  | nil =>
    simp only [chain_get, List.map_cons, List.map_nil]
    rw [hg_upd (mkInode id) rfl]
    exact hfound []
  | cons e rest ih =>
    by_cases h1 : id = e.i_ino
    · simp only [chain_get, if_pos h1, List.map_cons]
      rw [hg_upd e h1.symm]
      exact hfound _
    · by_cases h2 : id < e.i_ino
      · simp only [chain_get, if_neg h1, if_pos h2, List.map_cons]
        rw [hg_upd (mkInode id) rfl]
        exact hfound _
      · simp only [chain_get, if_neg h1, if_neg h2, List.map_cons]
        have he : ¬ e.i_ino = upd.i_ino := by rw [hupd]; omega
        rw [if_neg he]
        simp only [chain_get, if_neg h1, if_neg h2]
        simpa using ih

theorem get_inode_after_update (t : List (List Inode)) (id : Nat)
    (upd : Inode) (hupd : upd.i_ino = id)
    (hlen : t.length = INODE_TABLE_BUCKETS) :
    (get_inode id (htable_update (get_inode id t).1 upd)).2 = upd := by
  have hidx : id % INODE_TABLE_BUCKETS < t.length := by
    rw [hlen]; exact Nat.mod_lt _ (by decide)
  unfold get_inode get_htable_entry htable_update
  simp only []
  rw [getD_map_nil _ rfl, getD_set_self_len _ _ _ _ hidx]
  exact chain_get_update_inode id upd hupd _

/-! ### Helper lemma: shape of a successful parse_inode_record call -/

theorem parse_inode_record_ok_shape (key_id : Nat) (val : List Nat)
    (len : Int) (vsb s' : Super)
    (h : parse_inode_record key_id val len vsb = .ok s') :
    ∃ inodeF : Inode, inodeF.i_ino = key_id ∧ inodeF.i_seen = true ∧
      inodeF.i_mode = le16_at val 80 ∧
      s'.v_inode_table =
        htable_update (get_inode key_id vsb.v_inode_table).1 inodeF := by
  simp only [parse_inode_record] at h
  split at h
  · simp at h
  · split at h
    · simp at h
    · split at h
      · simp at h
      · split at h
        · simp at h
        · split at h
          · simp at h
          · split at h
            · simp at h
            · split at h
              · simp at h
              · rename_i iF hx
                simp only [Except.ok.injEq] at h
                obtain ⟨sz, hsz⟩ :=
                  parse_inode_xfields_size_only _ _ _ _ hx
                refine ⟨iF, ?_, ?_, ?_, ?_⟩
                · rw [hsz]
                  exact get_inode_ino key_id vsb.v_inode_table
                · rw [hsz]
                · rw [hsz]
                · rw [← h]

/-! ### C6: repeated inode records -/

/-- C6: after a first successful `parse_inode_record` call for a catalog
id (which marks the inode resolved by get-or-create as seen), a second call
carrying the same id is fatal with "inode numbers are repeated.", whatever
value bytes it carries, as long as the second value is not rejected as too
small before the seen check.  `hlen` records that the inode table has its
allocated `INODE_TABLE_BUCKETS` buckets. -/
theorem parse_inode_record_repeated (key_id : Nat) (val1 val2 : List Nat)
    (len1 len2 : Int) (s s' : Super)
    (hlen : s.v_inode_table.length = INODE_TABLE_BUCKETS)
    (h1 : parse_inode_record key_id val1 len1 s = .ok s')
    (h2 : (sizeof_apfs_inode_val : Int) ≤ len2) :
    parse_inode_record key_id val2 len2 s' =
      .error "inode numbers are repeated." := by
  obtain ⟨inodeF, hino, hseen, _, htab⟩ :=
    parse_inode_record_ok_shape key_id val1 len1 s s' h1
  have hget : (get_inode key_id s'.v_inode_table).2 = inodeF := by
    rw [htab]
    exact get_inode_after_update s.v_inode_table key_id inodeF hino hlen
  simp only [parse_inode_record]
  rw [if_neg (by omega), hget, hseen]
  simp

/-- Witness for C6, Scenario 2: parsing the same demo record twice for
catalog id 20 makes the second call fatal with "inode numbers are
repeated.". -/
theorem parse_inode_record_repeated_witness :
    parse_inode_record 20 demo_inode_val 92 demo_super1 =
      .error "inode numbers are repeated." := by
  have h1 : parse_inode_record 20 demo_inode_val 92 demo_super0 =
      .ok demo_super1 := by rfl
  exact parse_inode_record_repeated 20 demo_inode_val demo_inode_val 92 92
    demo_super0 demo_super1 (by rfl) h1 (by decide)

/-! ### C9: dentry-set mode versus inode-record mode -/

/-- C9: when the resolved inode already carries a nonzero mode, set by an
earlier-observed record of another kind and consisting of type bits only,
and those type bits disagree with the type bits of the declared mode of
this record, `parse_inode_record` is fatal with "file mode doesn\x27t match
dentry type."; and on any successful parse the declared mode itself is
stored on the inode, so a conflicting earlier type is never silently
overwritten. -/
theorem parse_inode_record_mode (key_id : Nat) (val : List Nat) (len : Int)
    (s : Super)
    (hlen : s.v_inode_table.length = INODE_TABLE_BUCKETS)
    (hlen92 : (sizeof_apfs_inode_val : Int) ≤ len)
    (hseen : (get_inode key_id s.v_inode_table).2.i_seen = false)
    (hids : check_inode_ids key_id (le64_at val 0) = .ok ())
    (hmode0 : (get_inode key_id s.v_inode_table).2.i_mode ≠ 0)
    (htype : (get_inode key_id s.v_inode_table).2.i_mode &&& S_IFMT =
      (get_inode key_id s.v_inode_table).2.i_mode) :
    ((get_inode key_id s.v_inode_table).2.i_mode &&& S_IFMT ≠
        le16_at val 80 &&& S_IFMT →
      parse_inode_record key_id val len s =
        .error "file mode doesn\x27t match dentry type.") ∧
    (∀ s' : Super, parse_inode_record key_id val len s = .ok s' →
      (get_inode key_id s'.v_inode_table).2.i_mode = le16_at val 80) := by
  constructor
  · intro hdis
    have hdis' : (get_inode key_id s.v_inode_table).2.i_mode ≠
        le16_at val 80 &&& S_IFMT := by
      rw [← htype]; exact hdis
    simp only [parse_inode_record]
    rw [if_neg (by omega), hseen]
    simp only [Bool.false_eq_true, if_false]
    rw [get_inode_ino key_id s.v_inode_table, hids]
    simp only []
    rw [if_pos ⟨hmode0, hdis'⟩]
  · intro s' h
    obtain ⟨inodeF, hino, _, hmode, htab⟩ :=
      parse_inode_record_ok_shape key_id val len s s' h
    rw [htab, get_inode_after_update s.v_inode_table key_id inodeF hino hlen,
      hmode]

/-- Witness for C9: on a session whose inode 20 already carries directory
type bits 0x4000 from a dentry, parsing a record declaring the
regular-file mode 0x8124 is fatal, and parsing a record declaring the
directory mode 0x4141 succeeds and stores 0x4141. -/
theorem parse_inode_record_mode_witness :
    parse_inode_record 20 demo_inode_val_reg 92 demo_super2 =
      .error "file mode doesn\x27t match dentry type." ∧
    (get_inode 20 demo_super3.v_inode_table).2.i_mode =
      le16_at demo_inode_val 80 := by
  constructor
  · exact (parse_inode_record_mode 20 demo_inode_val_reg 92 demo_super2
      (by rfl) (by decide) (by rfl) (by rfl) (by decide) (by decide)).1
      (by decide)
  · exact (parse_inode_record_mode 20 demo_inode_val 92 demo_super2
      (by rfl) (by decide) (by rfl) (by rfl) (by decide) (by decide)).2
      demo_super3 (by rfl)

/-! ### Helper lemmas: sorted chains and the table invariant -/

theorem chain_head_lt {α : Type} (idOf : α → Nat) :
    ∀ (l : List α) (a e : α),
      List.Chain' (fun x y => idOf x < idOf y) (a :: l) → e ∈ l →
      idOf a < idOf e := by
  intro l
  induction l with
  | nil => intro a e _ he; simp at he
  | cons b l ih =>
    intro a e hch he
    rcases List.mem_cons.mp he with rfl | he'
    · exact (List.chain'_cons.mp hch).1
    · exact lt_trans (List.chain'_cons.mp hch).1
        (ih b e (List.chain'_cons.mp hch).2 he')

theorem chain_get_found {α : Type} (idOf : α → Nat) (mk : Nat → α)
    (id : Nat) :
    ∀ (l : List α) (e : α),
      List.Chain' (fun x y => idOf x < idOf y) l → e ∈ l → idOf e = id →
      chain_get idOf mk id l = (l, e) := by
  intro l
  induction l with
  | nil => intro e _ he _; simp at he
  | cons a rest ih =>
    intro e hch he hid
    rcases List.mem_cons.mp he with rfl | he'
    · simp [chain_get, hid]
    · have hlt : idOf a < id := by
        rw [← hid]; exact chain_head_lt idOf rest a e hch he'
      have h1 : ¬ id = idOf a := by omega
      have h2 : ¬ id < idOf a := by omega
      simp only [chain_get, if_neg h1, if_neg h2]
      rw [ih e (List.chain'_cons'.mp hch).2 he' hid]

theorem chain_get_chain_mem {α : Type} (idOf : α → Nat) (mk : Nat → α)
    (id : Nat) :
    ∀ (l : List α) (x : α), x ∈ (chain_get idOf mk id l).1 →
      x = mk id ∨ x ∈ l := by
  intro l
  induction l with
  | nil => intro x hx; simp [chain_get] at hx; exact Or.inl hx
  | cons e rest ih =>
    intro x hx
    by_cases h1 : id = idOf e
    · simp only [chain_get, if_pos h1] at hx
      exact Or.inr hx
    · by_cases h2 : id < idOf e
      · simp only [chain_get, if_neg h1, if_pos h2] at hx
        rcases List.mem_cons.mp hx with rfl | hx'
        · exact Or.inl rfl
        · exact Or.inr hx'
      · simp only [chain_get, if_neg h1, if_neg h2] at hx
        rcases List.mem_cons.mp hx with rfl | hx'
        · exact Or.inr (List.mem_cons_self _ _)
        · rcases ih x hx' with h | h
          · exact Or.inl h
          · exact Or.inr (List.mem_cons_of_mem _ h)

theorem chain_get_head? {α : Type} (idOf : α → Nat) (mk : Nat → α)
    (id : Nat) (l : List α) :
    (chain_get idOf mk id l).1.head? = l.head? ∨
    (chain_get idOf mk id l).1.head? = some (mk id) := by
  cases l with
  | nil => right; rfl
  | cons e rest =>
    by_cases h1 : id = idOf e
    · left; simp [chain_get, if_pos h1]
    · by_cases h2 : id < idOf e
      · right; simp [chain_get, if_neg h1, if_pos h2]
      · left; simp [chain_get, if_neg h1, if_neg h2]

theorem chain_get_sorted {α : Type} (idOf : α → Nat) (mk : Nat → α)
    (hmk : ∀ i, idOf (mk i) = i) (id : Nat) :
    ∀ l : List α, List.Chain' (fun x y => idOf x < idOf y) l →
      List.Chain' (fun x y => idOf x < idOf y) (chain_get idOf mk id l).1 := by
  intro l
  induction l with
  | nil => intro _; simp [chain_get]
  | cons e rest ih =>
    intro hch
    by_cases h1 : id = idOf e
    · simpa [chain_get, if_pos h1] using hch
    · by_cases h2 : id < idOf e
      · simp only [chain_get, if_neg h1, if_pos h2]
        exact List.chain'_cons.mpr ⟨by rw [hmk]; exact h2, hch⟩
      · simp only [chain_get, if_neg h1, if_neg h2]
        have hch' := (List.chain'_cons'.mp hch).2
        refine List.chain'_cons'.mpr ⟨?_, ih hch'⟩
        intro y hy
        rcases chain_get_head? idOf mk id rest with hh | hh
        · rw [hh] at hy
          exact (List.chain'_cons'.mp hch).1 y hy
        · rw [hh] at hy
          simp only [Option.mem_def, Option.some.injEq] at hy
          subst hy
          rw [hmk]
          omega

theorem run_gets_invariant {α : Type} (idOf : α → Nat) (mk : Nat → α)
    (hmk : ∀ i, idOf (mk i) = i) (ids : List Nat) :
    (run_gets idOf mk ids).length = HTABLE_BUCKETS ∧
    (∀ bucket ∈ run_gets idOf mk ids,
      List.Chain' (fun x y => idOf x < idOf y) bucket) ∧
    (∀ i : Nat, ∀ bucket ∈ (run_gets idOf mk ids)[i]?, ∀ e ∈ bucket,
      idOf e % INODE_TABLE_BUCKETS = i) := by
  have step : ∀ (t : List (List α)) (id : Nat),
      t.length = HTABLE_BUCKETS →
      (∀ bucket ∈ t, List.Chain' (fun x y => idOf x < idOf y) bucket) →
      (∀ i : Nat, ∀ bucket ∈ t[i]?, ∀ e ∈ bucket,
        idOf e % INODE_TABLE_BUCKETS = i) →
      ((get_htable_entry idOf mk id t).1.length = HTABLE_BUCKETS ∧
        (∀ bucket ∈ (get_htable_entry idOf mk id t).1,
          List.Chain' (fun x y => idOf x < idOf y) bucket) ∧
        (∀ i : Nat, ∀ bucket ∈ (get_htable_entry idOf mk id t).1[i]?,
          ∀ e ∈ bucket, idOf e % INODE_TABLE_BUCKETS = i)) := by
    intro t id hlen hsort hres
    have hidx : id % INODE_TABLE_BUCKETS < t.length := by
      rw [hlen]; exact Nat.mod_lt _ (by decide)
    have hbucket : t.getD (id % INODE_TABLE_BUCKETS) [] =
        t[id % INODE_TABLE_BUCKETS] := List.getD_eq_getElem t [] hidx
    have hbsort :
        List.Chain' (fun x y => idOf x < idOf y)
          (t.getD (id % INODE_TABLE_BUCKETS) []) := by
      rw [hbucket]
      exact hsort _ (List.getElem_mem hidx)
    unfold get_htable_entry
    simp only []
    refine ⟨by rw [List.length_set, hlen], ?_, ?_⟩
    · intro bucket hb
      rcases List.mem_or_eq_of_mem_set hb with hb' | rfl
      · exact hsort bucket hb'
      · exact chain_get_sorted idOf mk hmk id _ hbsort
    · intro i bucket hb e he
      by_cases hi : i = id % INODE_TABLE_BUCKETS
      · subst hi
        rw [List.getElem?_set_self (by omega)] at hb
        simp only [Option.mem_def, Option.some.injEq] at hb
        subst hb
        rcases chain_get_chain_mem idOf mk id _ e he with rfl | he'
        · rw [hmk]
        · refine hres _ t[id % INODE_TABLE_BUCKETS] ?_ e (hbucket ▸ he')
          rw [List.getElem?_eq_getElem hidx]
          rfl
      · rw [List.getElem?_set_ne (fun h => hi h.symm)] at hb
        exact hres i bucket hb e he
  have main : ∀ (ids' : List Nat) (t : List (List α)),
      t.length = HTABLE_BUCKETS →
      (∀ bucket ∈ t, List.Chain' (fun x y => idOf x < idOf y) bucket) →
      (∀ i : Nat, ∀ bucket ∈ t[i]?, ∀ e ∈ bucket,
        idOf e % INODE_TABLE_BUCKETS = i) →
      ((ids'.foldl (fun t id => (get_htable_entry idOf mk id t).1) t).length =
          HTABLE_BUCKETS ∧
        (∀ bucket ∈ ids'.foldl (fun t id => (get_htable_entry idOf mk id t).1) t,
          List.Chain' (fun x y => idOf x < idOf y) bucket) ∧
        (∀ i : Nat,
          ∀ bucket ∈
            (ids'.foldl (fun t id => (get_htable_entry idOf mk id t).1) t)[i]?,
          ∀ e ∈ bucket, idOf e % INODE_TABLE_BUCKETS = i)) := by
    intro ids'
    induction ids' with
    | nil => intro t h1 h2 h3; exact ⟨h1, h2, h3⟩
    | cons id rest ih =>
      intro t h1 h2 h3
      obtain ⟨g1, g2, g3⟩ := step t id h1 h2 h3
      exact ih _ g1 g2 g3
  refine main ids alloc_htable ?_ ?_ ?_
  · simp [alloc_htable]
  · intro bucket hb
    rw [List.eq_of_mem_replicate hb]
    simp
  · intro i bucket hb e he
    unfold alloc_htable at hb
    rw [List.getElem?_replicate] at hb
    split at hb <;> simp only [Option.mem_def, Option.some.injEq,
      reduceCtorEq] at hb
    subst hb
    simp at he

/-! ### C7: bucket chains stay strictly ascending; repeated get is pure -/

/-- C7: for any sequence of get-or-create calls on one hash table, every
bucket chain stays strictly ascending by id (hence without duplicate ids),
and a call whose id is already present in its bucket returns the identical
existing entity and leaves the table unmodified, allocating nothing.  `mk`
is the zero-initialized entity builder with the id stamped, so
`idOf (mk i) = i`. -/
theorem get_htable_entry_invariants {α : Type} (idOf : α → Nat)
    (mk : Nat → α) (hmk : ∀ i, idOf (mk i) = i) :
    (∀ ids : List Nat, ∀ bucket ∈ run_gets idOf mk ids,
      List.Chain' (fun x y => idOf x < idOf y) bucket) ∧
    (∀ (table : List (List α)) (id : Nat) (e : α),
      (∀ bucket ∈ table, List.Chain' (fun x y => idOf x < idOf y) bucket) →
      e ∈ table.getD (id % INODE_TABLE_BUCKETS) [] → idOf e = id →
      get_htable_entry idOf mk id table = (table, e)) := by
  constructor
  · intro ids
    exact (run_gets_invariant idOf mk hmk ids).2.1
  · intro table id e hsort he hid
    have hbsort : List.Chain' (fun x y => idOf x < idOf y)
        (table.getD (id % INODE_TABLE_BUCKETS) []) := by
      by_cases hidx : id % INODE_TABLE_BUCKETS < table.length
      · rw [List.getD_eq_getElem table [] hidx]
        exact hsort _ (List.getElem_mem hidx)
      · rw [List.getD_eq_default table [] (by omega)]
        simp
    unfold get_htable_entry
    simp only []
    rw [chain_get_found idOf mk id _ e hbsort he hid]
    rw [set_getD_self]

/-- Witness for C7: after the calls 5, 517, 5 the bucket of residue 5 is
the strictly ascending chain of the two created entities, and a repeated
get for id 5 returns the existing entity unchanged without touching the
table. -/
theorem get_htable_entry_invariants_witness :
    List.Chain' (fun x y : Inode => x.i_ino < y.i_ino)
      ((run_gets Inode.i_ino mkInode [5, 517, 5]).getD 5 []) ∧
    get_htable_entry Inode.i_ino mkInode 5
        (run_gets Inode.i_ino mkInode [5, 517]) =
      (run_gets Inode.i_ino mkInode [5, 517], mkInode 5) := by
  constructor
  · refine (get_htable_entry_invariants Inode.i_ino mkInode
      (fun i => rfl)).1 [5, 517, 5] _ ?_
    have : (run_gets Inode.i_ino mkInode [5, 517, 5]).getD 5 [] =
        [mkInode 5, mkInode 517] := by rfl
    rw [this]
    decide
  · exact (get_htable_entry_invariants Inode.i_ino mkInode
      (fun i => rfl)).2 (run_gets Inode.i_ino mkInode [5, 517]) 5 (mkInode 5)
      ((get_htable_entry_invariants Inode.i_ino mkInode (fun i => rfl)).1
        [5, 517])
      (by decide) (by rfl)

/-! ### C8: teardown finalizes every entity exactly once -/

/-- C8: for a table built by any sequence of get-or-create insertions on a
fresh `alloc_htable`, the finalizer sequence of `free_htable` contains no
entity twice and contains exactly the entities reachable from the buckets
of the table: every entity is finalized (and then released) exactly once,
with no leak and no double finalization, before the bucket array is
released. -/
theorem free_htable_exactly_once {α : Type} (idOf : α → Nat)
    (mk : Nat → α) (hmk : ∀ i, idOf (mk i) = i) (ids : List Nat) :
    (free_htable (run_gets idOf mk ids)).Nodup ∧
    (∀ e, e ∈ free_htable (run_gets idOf mk ids) ↔
      ∃ bucket ∈ run_gets idOf mk ids, e ∈ bucket) := by
  obtain ⟨hlen, hsort, hres⟩ := run_gets_invariant idOf mk hmk ids
  have hbk : HTABLE_BUCKETS = INODE_TABLE_BUCKETS := rfl
  have hresD : ∀ i : Nat, i < (run_gets idOf mk ids).length →
      ∀ e ∈ (run_gets idOf mk ids).getD i [],
        idOf e % INODE_TABLE_BUCKETS = i := by
    intro i hi e he
    refine hres i ((run_gets idOf mk ids)[i]) ?_ e ?_
    · rw [List.getElem?_eq_getElem hi]; rfl
    · rw [List.getD_eq_getElem _ [] hi] at he; exact he
  have hsortD : ∀ i : Nat, i < (run_gets idOf mk ids).length →
      List.Chain' (fun x y => idOf x < idOf y)
        ((run_gets idOf mk ids).getD i []) := by
    intro i hi
    rw [List.getD_eq_getElem _ [] hi]
    exact hsort _ (List.getElem_mem hi)
  constructor
  · unfold free_htable
    rw [List.nodup_flatten]
    constructor
    · intro l hl
      rw [List.mem_map] at hl
      obtain ⟨i, hi, rfl⟩ := hl
      rw [List.mem_range] at hi
      have hi' : i < (run_gets idOf mk ids).length := by
        rw [hlen]; exact hi
      haveI : IsTrans α (fun x y => idOf x < idOf y) :=
        ⟨fun _ _ _ => Nat.lt_trans⟩
      exact ((List.chain'_iff_pairwise.mp (hsortD i hi')).imp
        (fun h => fun heq => by subst heq; exact Nat.lt_irrefl _ h))
    · rw [List.pairwise_map]
      refine (List.pairwise_lt_range _).imp_of_mem ?_
      intro i j hi hj hij e hei hej
      rw [List.mem_range] at hi hj
      have h1 := hresD i (by omega) e hei
      have h2 := hresD j (by omega) e hej
      omega
  · intro e
    unfold free_htable
    rw [List.mem_flatten]
    constructor
    · rintro ⟨l, hl, hel⟩
      rw [List.mem_map] at hl
      obtain ⟨i, hi, rfl⟩ := hl
      rw [List.mem_range] at hi
      have hi' : i < (run_gets idOf mk ids).length := by
        rw [hlen]; exact hi
      rw [List.getD_eq_getElem _ [] hi'] at hel
      exact ⟨_, List.getElem_mem hi', hel⟩
    · rintro ⟨bucket, hb, heb⟩
      obtain ⟨i, hi, rfl⟩ := List.mem_iff_getElem.mp hb
      refine ⟨(run_gets idOf mk ids).getD i [], ?_, ?_⟩
      · rw [List.mem_map]
        exact ⟨i, List.mem_range.mpr (by omega), rfl⟩
      · rw [List.getD_eq_getElem _ [] hi]
        exact heb

/-- Witness for C8: every entity created by the calls 5, 517, 5 appears in
the finalizer sequence exactly once. -/
theorem free_htable_exactly_once_witness :
    (free_htable (run_gets Inode.i_ino mkInode [5, 517, 5])).Nodup ∧
    (mkInode 517 ∈ free_htable (run_gets Inode.i_ino mkInode [5, 517, 5]) ↔
      ∃ bucket ∈ run_gets Inode.i_ino mkInode [5, 517, 5],
        mkInode 517 ∈ bucket) :=
  ⟨(free_htable_exactly_once Inode.i_ino mkInode (fun _ => rfl)
      [5, 517, 5]).1,
   (free_htable_exactly_once Inode.i_ino mkInode (fun _ => rfl)
      [5, 517, 5]).2 (mkInode 517)⟩

/-! ### C10: inodes without a dstream xfield keep size zero -/

theorem xfield_len_no_dstream (v : List Nat) (pos : Nat) (len : Int)
    (xtype : Nat) (inode : Inode) (xlen : Nat) (inode' : Inode)
    (hnd : xtype ≠ APFS_INO_EXT_TYPE_DSTREAM)
    (h : xfield_len v pos len xtype inode = .ok (xlen, inode')) :
    inode' = inode := by
  unfold xfield_len read_dstream_xfield at h
  simp only [] at h
  split_ifs at h <;>
    simp only [Except.ok.injEq, Prod.mk.injEq, reduceCtorEq] at h <;>
    exact h.2.symm

theorem xfields_loop_no_dstream (v : List Nat) :
    ∀ (descs : List (Nat × Nat)) (pos : Nat) (len : Int) (inode : Inode)
      (lenF : Int) (inode' : Inode),
      (∀ d ∈ descs, d.1 ≠ APFS_INO_EXT_TYPE_DSTREAM) →
      xfields_loop v descs pos len inode = .ok (lenF, inode') →
      inode' = inode := by
  intro descs
  induction descs with
  | nil =>
    intro pos len inode lenF inode' _ h
    simp only [xfields_loop, Except.ok.injEq, Prod.mk.injEq] at h
    exact h.2.symm
  | cons d rest ih =>
    intro pos len inode lenF inode' hnd h
    obtain ⟨xtype, xsize⟩ := d
    simp only [xfields_loop] at h
    rcases hx : xfield_len v pos len xtype inode with e | q
    · rw [hx] at h; simp at h
    · obtain ⟨xlen, inode1⟩ := q
      rw [hx] at h
      simp only [] at h
      split at h
      · simp at h
      · split at h
        · simp at h
        · split at h
          · simp at h
          · have h1 : inode1 = inode :=
              xfield_len_no_dstream v pos len xtype inode xlen inode1
                (hnd (xtype, xsize) (List.mem_cons_self _ _)) hx
            subst h1
            exact ih _ _ _ _ _
              (fun d hd => hnd d (List.mem_cons_of_mem _ hd)) h

/-- C10: an inode that never receives a dstream-reference extended field
keeps the declared size it was created with: a `calloc`-fresh inode starts
with size zero, a blob whose descriptor array carries no dstream type tag
leaves the size untouched on a successful parse, and with size zero the
deferred "some extents are missing." branch is unreachable, because the
tracked dstream size is a Nat and cannot be below zero. -/
theorem no_dstream_keeps_size_zero (ino : Nat) (v : List Nat) (len : Int)
    (inode inode' : Inode) (d_size : Nat → Nat) :
    (mkInode ino).i_size = 0 ∧
    ((∀ d ∈ xfield_descs v (le16_at v 0), d.1 ≠ APFS_INO_EXT_TYPE_DSTREAM) →
      parse_inode_xfields v len inode = .ok inode' →
      inode'.i_size = inode.i_size) ∧
    (inode.i_size = 0 →
      check_inode_stats inode d_size ≠ .error "some extents are missing.") := by
  refine ⟨rfl, ?_, ?_⟩
  · intro hnd h
    simp only [parse_inode_xfields] at h
    split at h
    · simp only [Except.ok.injEq] at h
      rw [← h]
    · split at h
      · simp at h
      · split at h
        · simp at h
        · split at h
          · simp at h
          · split at h
            · simp at h
            · rename_i lenF inodeF hloop
              split at h
              · simp at h
              · simp only [Except.ok.injEq] at h
                subst h
                rw [xfields_loop_no_dstream v _ _ _ _ _ _ hnd hloop]
  · intro hsize h
    unfold check_inode_stats at h
    rw [hsize] at h
    split_ifs at h <;> simp_all

/-- Witness for C10: a blob carrying only a document-id field leaves the
fresh inode size at zero, and the deferred check on a fresh inode cannot
report missing extents. -/
theorem no_dstream_keeps_size_zero_witness :
    ((mkInode 20).i_size = 0) ∧
    (let r := parse_inode_xfields
      [1, 0, 8, 0, 3, 0, 4, 0, 9, 9, 9, 9, 0, 0, 0, 0] 16 (mkInode 20)
     r = .ok (mkInode 20)) ∧
    check_inode_stats (mkInode 20) (fun _ => 0) ≠
      .error "some extents are missing." := by
  refine ⟨(no_dstream_keeps_size_zero 20 [] 0 (mkInode 20) (mkInode 20)
    (fun _ => 0)).1, by rfl, ?_⟩
  exact (no_dstream_keeps_size_zero 20
    [1, 0, 8, 0, 3, 0, 4, 0, 9, 9, 9, 9, 0, 0, 0, 0] 16 (mkInode 20)
    (mkInode 20) (fun _ => 0)).2.2 rfl

end Apfsck
